import Mathlib

/-!
Verification development for the titus-transmitter core: the change-detecting
Telegram registration client (`src/lib/telegram/Telegram.ts`), the versioned
hook-state store (`HookStateRepository`), and the stale-while-revalidate cache
(`SWRCache`), shallowly embedded as executable Lean definitions.

Conventions of the embedding:
* JavaScript `Date` values become `Nat` timestamps (millisecond epoch order).
* Nullable / optional JS values become `Option`.
* Each repository method that internally reads `new Date()` takes the current
  time `now` as an explicit argument.
* MongoDB `updateOne` is modelled as: find the first document matching the
  filter, apply the `$set` document to it.  Values inside `$set` are stored
  verbatim; MongoDB does not interpret an operator-shaped document nested in a
  `$set` value as an operator, so `version: { $inc: 1 }` stores the literal
  object (on servers that forbid storing dollar-prefixed field names the write
  errors instead; in neither case is the stored version incremented).
* The event-driven concurrency of the cache is modelled by splitting each
  `async` method into its synchronous segments (the code between `await`
  points), which JavaScript executes atomically, and exposing the completion
  handlers as separate steps that a scheduler may interleave.
-/

namespace TitusTransmitter

/-! ### JavaScript string primitives used by `detectWebhookChange` -/

/-- Model of `String.prototype.startsWith` restricted to what substring
search needs: does `pat` occur at the head of `hay`? -/
def strStartsWith : List Char → List Char → Bool
  | _, [] => true
  | [], _ :: _ => false
  | a :: as, b :: bs => a == b && strStartsWith as bs

/-- Model of JavaScript `hay.includes(pat)`: does `pat` occur as a contiguous
subsequence of `hay`?  The empty pattern is contained in every string. -/
def strContainsSub : List Char → List Char → Bool
  | [], pat => pat.isEmpty
  | a :: t, pat => strStartsWith (a :: t) pat || strContainsSub t pat

/-- Model of `String.prototype.toLowerCase` (the repository only ever matches
ASCII phrases, for which `Char.toLower` agrees with JavaScript). -/
def lowerChars (l : List Char) : List Char := l.map Char.toLower

/-! ### Telegram API responses and change detection -/

/-- Model of a parsed Telegram Bot API response to `setWebhook`
(`SetWebhookBody` plus the fields the retry loop reads from the raw JSON:
`error_code` and `parameters.retry_after`).  `description` is `Option` because
the code guards it with `?.` before lowercasing. -/
structure ApiResponse where
  ok : Bool
  result : Bool := true
  description : Option String := none
  error_code : Option Nat := none
  retry_after : Option Nat := none
deriving DecidableEq, Repr

/-- The local `description` of `detectWebhookChange`:
`apiResult.description?.toLowerCase() || ""` (a missing description becomes
the empty string, then everything is lowercased). -/
def loweredDescription (r : ApiResponse) : List Char :=
  lowerChars (r.description.getD "").data

/-- Model of `Telegram.detectWebhookChange` (Telegram.ts lines 247-266):
a failed result is "no change"; otherwise a description containing
"already set" is "no change", then one containing "was set" is "changed",
and anything else defaults to "no change". -/
def detectWebhookChange (r : ApiResponse) : Bool :=
  if !r.ok then false
  else
    if strContainsSub (loweredDescription r) "already set".data then false
    else if strContainsSub (loweredDescription r) "was set".data then true
    else false

/-! ### The retry loop of `setWebhookWithRetry` -/

/-- Outcome of one underlying `fetch`+`json()` round trip: either the
transport threw, or a parsed response came back. -/
inductive FetchOutcome where
  | throwErr
  | reply (r : ApiResponse)
deriving DecidableEq, Repr

/-- Observable result of `setWebhookWithRetry`: the returned value, the number
of underlying request attempts made, and the sequence of sleeps (in
milliseconds) performed between attempts. -/
structure RetryResult where
  result : Option ApiResponse
  attempts : Nat
  sleeps : List Nat
deriving DecidableEq, Repr

/-- Loop body of `Telegram.setWebhookWithRetry` (Telegram.ts lines 189-244).
`responses n` is the outcome of the (n+1)-st underlying request.  `fuel`
witnesses the loop bound `attempt < maxRetries` (`fuel = maxRetries -
attempt`), `attempt` and `calls` mirror the source counters, and `sleeps`
accumulates the delays.  A rate-limited reply (`error_code = 429`) sleeps for
`(parameters.retry_after || 1) * 1000` ms and consumes an attempt; a thrown
transport error returns `null` when it was the last attempt and otherwise
sleeps `1000 * attempt` ms after incrementing `attempt`; any other reply is
returned as is. -/
def goRetry (responses : Nat → FetchOutcome) (maxRetries : Nat) :
    Nat → Nat → Nat → List Nat → RetryResult
  | 0, _, calls, sleeps => ⟨none, calls, sleeps⟩
  | fuel + 1, attempt, calls, sleeps =>
    match responses calls with
    | .throwErr =>
      if attempt == maxRetries - 1 then ⟨none, calls + 1, sleeps⟩
      else
        goRetry responses maxRetries fuel (attempt + 1) (calls + 1)
          (sleeps ++ [1000 * (attempt + 1)])
    | .reply r =>
      if r.error_code == some 429 then
        let retryAfter :=
          match r.retry_after with
          | some ra => if ra == 0 then 1 else ra
          | none => 1
        goRetry responses maxRetries fuel (attempt + 1) (calls + 1)
          (sleeps ++ [retryAfter * 1000])
      else ⟨some r, calls + 1, sleeps⟩

/-- Model of `Telegram.setWebhookWithRetry` (Telegram.ts lines 181-245):
`maxRetries = 3`, starting at `attempt = 0` with no calls made. -/
def setWebhookWithRetry (responses : Nat → FetchOutcome) : RetryResult :=
  goRetry responses 3 3 0 0 []

/-! ### The versioned hook-state store (`HookStateRepository`) -/

/-- Value held by a document's `version` field (and by the in-process version
cache).  `int` is an ordinary number; `incLit` is the literal operator-shaped
document `\x7b $inc: k \x7d` that `$set` stores verbatim; `jstr` is a string, the
result of JavaScript `+ 1` coercion on a non-numeric cached value. -/
inductive MVal where
  | int (n : Int)
  | incLit (k : Int)
  | jstr (s : String)
deriving DecidableEq, Repr

/-- JavaScript truthiness of an `MVal`: `0` is falsy, objects are always
truthy, the empty string is falsy. -/
def jsTruthy : MVal → Bool
  | .int n => n != 0
  | .incLit _ => true
  | .jstr s => s != ""

/-- JavaScript `v + 1` on an `MVal`: numeric addition on numbers, string
concatenation after `toString` coercion otherwise (an object stringifies to
"[object Object]"). -/
def jsAdd1 : MVal → MVal
  | .int n => .int (n + 1)
  | .incLit _ => .jstr "[object Object]1"
  | .jstr s => .jstr (s ++ "1")

/-- A persisted hook-state document (the `HookState` type of the repository,
src/unnamed/part_002 lines 4-19), timestamps as `Nat`. -/
structure HookDoc where
  botId : String
  webhookUrl : String
  secretToken : String
  failed : Bool
  failureDetectedAt : Option Nat := none
  createdAt : Nat
  updatedAt : Nat
  version : MVal
  apiCallAt : Option Nat := none
  apiRespAt : Option Nat := none
  dbUpdateAt : Option Nat := none
  lastWebhookUrl : Option String := none
deriving DecidableEq, Repr

/-- Model of `collection.findOne(\x7b botId \x7d)`: the first document whose
`botId` matches (the unique index makes at most one exist). -/
def findDoc (store : List HookDoc) (botId : String) : Option HookDoc :=
  store.find? (fun d => d.botId == botId)

/-- Model of `collection.updateOne(filter, upd)`: rewrite the first document
matching the filter; the returned flag is `modifiedCount > 0` (a matched
document counts as modified only if the update actually changed it). -/
def updateFirst : List HookDoc → (HookDoc → Bool) → (HookDoc → HookDoc) →
    List HookDoc × Bool
  | [], _, _ => ([], false)
  | d :: t, filt, f =>
    if filt d then (f d :: t, decide (f d ≠ d))
    else
      let (t', m) := updateFirst t filt f
      (d :: t', m)

/-- The uniqueness constraint enforced by `initialize`'s unique index on
`botId`: no two stored documents share a `botId`. -/
def uniqueIndex (store : List HookDoc) : Prop :=
  store.Pairwise (fun a b => a.botId ≠ b.botId)

/-- Repository state: the backing collection plus the process-wide
`getCurrentVersion` SWR cache (one cached value per `botId`; `none` models a
cached JavaScript `null`). -/
structure RState where
  store : List HookDoc
  vc : List (String × Option MVal) := []
deriving DecidableEq, Repr

/-- Lookup in the version cache: `some x` when the cache has an entry (whose
data is `x`, possibly null), `none` when there is no entry. -/
def vcLookup (vc : List (String × Option MVal)) (botId : String) :
    Option (Option MVal) :=
  (vc.find? (fun p => p.1 == botId)).map Prod.snd

/-- Write-through on the version cache (`getCurrentVersion.set`). -/
def vcSet : List (String × Option MVal) → String → Option MVal →
    List (String × Option MVal)
  | [], b, v => [(b, v)]
  | (b', v') :: t, b, v =>
    if b' == b then (b', v) :: t else (b', v') :: vcSet t b v

/-- Model of the SWR-wrapped `getCurrentVersion` (src/unnamed/part_002 lines
26-33), specialised to its sequential use inside the repository: a cached
non-null version is returned as is; otherwise (no entry, or a cached null,
which the generic cache treats like a miss) the store is read with
`result?.version || null` — so a falsy stored version also reads as null —
and the result is cached.  The background refresh the generic cache
would additionally schedule on a hit re-reads the same store and is elided
here; the generic cache itself is modelled in full further below. -/
def getCurrentVersion (s : RState) (botId : String) : Option MVal × RState :=
  match vcLookup s.vc botId with
  | some (some v) => (some v, s)
  | _ =>
    let fetched :=
      match findDoc s.store botId with
      | some d => if jsTruthy d.version then some d.version else none
      | none => none
    (fetched, { s with vc := vcSet s.vc botId fetched })

/-- Model of `setWebhookFailed` (src/unnamed/part_002 lines 114-143): read the
cached version; unknown subject is a no-op; otherwise one conditional write
matching `\x7b botId, version \x7d` sets `failed`, `failureDetectedAt`,
`updatedAt` and `version + 1`, and on success the cache is bumped. -/
def setWebhookFailed (s : RState) (botId : String) (now : Nat) : RState :=
  let (currentVersion, s1) := getCurrentVersion s botId
  match currentVersion with
  | none => s1
  | some v =>
    let (store', modified) := updateFirst s1.store
      (fun d => d.botId == botId && d.version == v)
      (fun d => { d with failed := true, failureDetectedAt := some now,
                         updatedAt := now, version := jsAdd1 v })
    let s2 := { s1 with store := store' }
    if modified then { s2 with vc := vcSet s2.vc botId (some (jsAdd1 v)) }
    else s2

/-- Result of the timing-ordered write path (`\x7b success; conflict?; reason? \x7d`). -/
structure TimedResult where
  success : Bool
  conflict : Option Bool := none
  reason : Option String := none
deriving DecidableEq, Repr

/-- Model of `createWithTiming` (src/unnamed/part_002 lines 222-257): insert a
fresh document at `version = 1` carrying the timing fields and prime the
version cache; a duplicate-key race (error code 11000, i.e. a document with
this `botId` already present) is caught and reported as `success: false`. -/
def createWithTiming (s : RState) (botId webhookUrl secretToken : String)
    (apiCallAt apiRespAt now : Nat) : TimedResult × RState :=
  match findDoc s.store botId with
  | some _ => ({ success := false }, s)
  | none =>
    let doc : HookDoc :=
      { botId := botId, webhookUrl := webhookUrl, secretToken := secretToken,
        failed := false, createdAt := now, updatedAt := now,
        version := .int 1, apiCallAt := some apiCallAt,
        apiRespAt := some apiRespAt, dbUpdateAt := some now,
        lastWebhookUrl := some webhookUrl }
    ({ success := true },
     { store := s.store ++ [doc], vc := vcSet s.vc botId (some (.int 1)) })

/-- The `$set` document of the timing-ordered update (src/unnamed/part_002
lines 188-200).  Note that its `version` entry is the operator-shaped literal
`\x7b $inc: 1 \x7d`, which `$set` stores verbatim rather than incrementing. -/
def timingSet (webhookUrl secretToken : String)
    (apiCallAt apiRespAt now : Nat) (d : HookDoc) : HookDoc :=
  { d with webhookUrl := webhookUrl, secretToken := secretToken,
           failed := false, updatedAt := now, apiCallAt := some apiCallAt,
           apiRespAt := some apiRespAt, dbUpdateAt := some now,
           lastWebhookUrl := some webhookUrl, version := .incLit 1 }

/-- The timing-conflict filter (src/unnamed/part_002 lines 179-186): match the
subject only if its stored `apiCallAt` is strictly older than the caller's or
absent. -/
def timingFilter (botId : String) (apiCallAt : Nat) (d : HookDoc) : Bool :=
  d.botId == botId &&
    (match d.apiCallAt with
     | some a => decide (a < apiCallAt)
     | none => true)

/-- Loop body of `updateWithTiming` (src/unnamed/part_002 lines 146-220).
`interf` models concurrent writers from other processes: when the record is
found absent, the head interference (if any) is applied to the collection
between the `findOne` and the delegated insert, which is how a concurrent
creator can win the race; the retry then consumes it.  `fuel` totalises the
source's recursion (`interf.length + 1` suffices: a failed create means a
document is now present, so the retry takes the update path and returns). -/
def updateWithTimingGo (botId webhookUrl secretToken : String)
    (apiCallAt apiRespAt : Nat) (webhookChanged : Bool) (now : Nat) :
    Nat → List (List HookDoc → List HookDoc) → RState → TimedResult × RState
  | 0, _, s => ({ success := false }, s)
  | fuel + 1, interf, s =>
    if !webhookChanged then ({ success := true }, s)
    else
      match findDoc s.store botId with
      | none =>
        let s1 :=
          match interf with
          | [] => s
          | g :: _ => { s with store := g s.store }
        let (createResult, s2) :=
          createWithTiming s1 botId webhookUrl secretToken apiCallAt apiRespAt
            now
        if createResult.success then ({ success := true }, s2)
        else
          updateWithTimingGo botId webhookUrl secretToken apiCallAt apiRespAt
            webhookChanged now fuel interf.tail s2
      | some _ =>
        let (store', modified) := updateFirst s.store
          (timingFilter botId apiCallAt)
          (timingSet webhookUrl secretToken apiCallAt apiRespAt now)
        if modified then
          let s2 := { s with store := store' }
          let (currentVersion, s3) := getCurrentVersion s2 botId
          let s4 :=
            match currentVersion with
            | some v => { s3 with vc := vcSet s3.vc botId (some (jsAdd1 v)) }
            | none => s3
          ({ success := true }, s4)
        else
          ({ success := false, conflict := some true,
             reason := some "newer_api_call_exists" }, s)

/-- Model of `updateWithTiming`: run the loop body with enough fuel for every
interference point plus the final attempt. -/
def updateWithTiming (interf : List (List HookDoc → List HookDoc))
    (s : RState) (botId webhookUrl secretToken : String)
    (apiCallAt apiRespAt : Nat) (webhookChanged : Bool) (now : Nat) :
    TimedResult × RState :=
  updateWithTimingGo botId webhookUrl secretToken apiCallAt apiRespAt
    webhookChanged now (interf.length + 1) interf s

/-- Model of `forceUpdateWithTiming` (src/unnamed/part_002 lines 259-295):
the same `$set` document applied unconditionally to the subject's record;
returns whether anything was modified, bumping the version cache on success. -/
def forceUpdateWithTiming (s : RState) (botId webhookUrl secretToken : String)
    (apiCallAt apiRespAt now : Nat) : Bool × RState :=
  let (store', modified) := updateFirst s.store (fun d => d.botId == botId)
    (timingSet webhookUrl secretToken apiCallAt apiRespAt now)
  if modified then
    let s2 := { s with store := store' }
    let (currentVersion, s3) := getCurrentVersion s2 botId
    let s4 :=
      match currentVersion with
      | some v => { s3 with vc := vcSet s3.vc botId (some (jsAdd1 v)) }
      | none => s3
    (true, s4)
  else (false, s)

/-- Model of `getByBotId` (src/unnamed/part_002 lines 55-59). -/
def getByBotId (s : RState) (botId : String) : Option HookDoc :=
  findDoc s.store botId

/-! ### The sync orchestrator (`Telegram.ensureWebhook`) -/

/-- Model of `Telegram.ensureWebhook` (Telegram.ts lines 45-150), composed
from the models above.  `responses` drives the underlying `setWebhook`
requests; `tCall`/`tResp` are the `apiCallAt`/`apiRespAt` timestamps taken
around the retried call; the returned pair is the value `ensureWebhook`
returns and the repository state after it.  A null or `ok:false` registration
marks the subject failed; a "no change" classification returns without
touching the store; otherwise the timing-ordered write runs, and on a timing
conflict the stored record is re-read and force-written only when its
`apiCallAt` is present and strictly older than ours. -/
def ensureWebhook (responses : Nat → FetchOutcome)
    (tCall tResp now : Nat) (botId url secretToken : String) (s : RState) :
    Option ApiResponse × RState :=
  match (setWebhookWithRetry responses).result with
  | none => (none, setWebhookFailed s botId now)
  | some r =>
    if !r.ok then (some r, setWebhookFailed s botId now)
    else
      let webhookChanged := detectWebhookChange r
      if !webhookChanged then (some r, s)
      else
        let (dbResult, s1) :=
          updateWithTiming [] s botId url secretToken tCall tResp
            webhookChanged now
        if dbResult.success then (some r, s1)
        else if dbResult.conflict == some true then
          match getByBotId s1 botId with
          | some currentState =>
            match currentState.apiCallAt with
            | some a =>
              if a < tCall then
                (some r,
                 (forceUpdateWithTiming s1 botId url secretToken tCall tResp
                   now).2)
              else (some r, s1)
            | none => (some r, s1)
          | none => (some r, s1)
        else (some r, s1)

/-! ### The stale-while-revalidate cache (`SWRCache`)

The generic cache is modelled for one fixed key (keys are independent: every
operation first serialises its arguments with `createKey` and works on that
entry alone).  Each `async` method is split at its `await` points into
synchronous segments, which JavaScript runs atomically; fetch completions are
separate steps.  `fg` counts fetcher invocations made by the blocking
`fetchAndCache` path, `bg` those made by `refreshInBackground`; promise
identities are numbered by `nextFid`. -/

/-- A JavaScript value cached as `data` (the cache is generic in `T`;
this covers the shapes the repository stores, including `null`). -/
inductive JVal where
  | null
  | num (n : Int)
  | str (s : String)
  | jbool (b : Bool)
deriving DecidableEq, Repr

/-- JavaScript truthiness of a `JVal`. -/
def jvTruthy : JVal → Bool
  | .null => false
  | .num n => n != 0
  | .str s => s != ""
  | .jbool b => b

/-- A cache map entry (`CacheEntry<T>`, src/unnamed/part_001 lines 3-7):
`data`, an optional in-flight promise, and the refresh guard. -/
structure CEntry where
  data : JVal
  promise : Option Nat := none
  refreshing : Bool := false
deriving DecidableEq, Repr

/-- Cache state for the fixed key: the map entry (if present) and
instrumentation: foreground and background fetcher invocation counts and the
next promise id. -/
structure CState where
  entry : Option CEntry := none
  fg : Nat := 0
  bg : Nat := 0
  nextFid : Nat := 0
deriving DecidableEq, Repr

/-- What a `get()` caller ends up doing: return a value synchronously from the
cache, or await the fetch with the given promise id (receiving that promise's
eventual value, or its rejection). -/
inductive GetOutcome where
  | value (v : JVal)
  | awaitFetch (fid : Nat)
deriving DecidableEq, Repr

/-- Synchronous prefix of `refreshInBackground` (src/unnamed/part_001 lines
104-117), up to its `await`: skip when a fetch or refresh is already in
flight; otherwise write the refresh marker `\x7b data: cached?.data || null,
refreshing: true \x7d` and invoke the fetcher.  Returns the promise id and the
captured `cached` data when a refresh actually starts. -/
def refreshStart (s : CState) : Option (Nat × JVal) × CState :=
  match s.entry with
  | some e =>
    if e.promise.isSome || e.refreshing then (none, s)
    else
      (some (s.nextFid, e.data),
       { s with
           entry := some { data := if jvTruthy e.data then e.data else .null,
                           refreshing := true },
           bg := s.bg + 1, nextFid := s.nextFid + 1 })
  | none =>
    (some (s.nextFid, .null),
     { s with entry := some { data := JVal.null, refreshing := true },
              bg := s.bg + 1, nextFid := s.nextFid + 1 })

/-- Synchronous prefix of `fetchAndCache` (src/unnamed/part_001 lines 81-93):
join an already-pending promise if the entry memoises one; otherwise invoke
the fetcher and memoise the new promise under `\x7b data: null, promise \x7d`. -/
def fetchAndCacheStep (s : CState) : GetOutcome × CState :=
  match s.entry with
  | some e =>
    match e.promise with
    | some fid => (.awaitFetch fid, s)
    | none =>
      (.awaitFetch s.nextFid,
       { s with entry := some { data := JVal.null, promise := some s.nextFid },
                fg := s.fg + 1, nextFid := s.nextFid + 1 })
  | none =>
    (.awaitFetch s.nextFid,
     { s with entry := some { data := JVal.null, promise := some s.nextFid },
              fg := s.fg + 1, nextFid := s.nextFid + 1 })

/-- Synchronous part of `get` (src/unnamed/part_001 lines 52-65): a cached
entry with non-null data is returned immediately after firing (not awaiting)
the background refresh; anything else goes through `fetchAndCache`. -/
def getStep (s : CState) : GetOutcome × CState :=
  match s.entry with
  | some e =>
    if e.data != JVal.null then (.value e.data, (refreshStart s).2)
    else fetchAndCacheStep s
  | none => fetchAndCacheStep s

/-- Completion of a successful foreground fetch (src/unnamed/part_001 lines
94-97): `this.cache.set(key, \x7b data \x7d)`; every caller awaiting the promise
receives `v`. -/
def fetchOk (s : CState) (v : JVal) : CState :=
  { s with entry := some { data := v } }

/-- Completion of a failed foreground fetch (src/unnamed/part_001 lines
98-101): the key is evicted and the error propagates to every awaiting
caller. -/
def fetchFail (s : CState) : CState :=
  { s with entry := none }

/-- Completion of a successful background refresh (src/unnamed/part_001 lines
120-121). -/
def refreshOk (s : CState) (v : JVal) : CState :=
  { s with entry := some { data := v } }

/-- Completion of a failed background refresh (src/unnamed/part_001 lines
122-126): the error is swallowed (logged only) and the handler writes back
`\x7b data: cached?.data || null \x7d` using the `cached` captured when the
refresh started. -/
def refreshFail (s : CState) (captured : JVal) : CState :=
  { s with entry := some { data := if jvTruthy captured then captured
                                   else JVal.null } }

/-- Model of the synchronous `set` (src/unnamed/part_001 lines 67-70). -/
def cacheSet (s : CState) (v : JVal) : CState :=
  { s with entry := some { data := v } }

/-- Model of the synchronous `delete` (src/unnamed/part_001 lines 72-75). -/
def cacheDelete (s : CState) : CState :=
  { s with entry := none }

/-- Value a caller ultimately receives, given an assignment of resolved
values to promise ids (one promise resolves to one value, so callers joined
on the same id necessarily agree). -/
def deliver (resolutions : Nat → JVal) : GetOutcome → JVal
  | .value v => v
  | .awaitFetch fid => resolutions fid

/-- Run the synchronous prefixes of `n` concurrent `get()` calls back to
back, before any fetch resolves. -/
def getN : Nat → CState → List GetOutcome × CState
  | 0, s => ([], s)
  | n + 1, s =>
    let (o, s1) := getStep s
    let (os, s2) := getN n s1
    (o :: os, s2)

/-! ## Theorems

Helper lemmas first, then one theorem per claim (with its witness or
counterexample where required). -/

/-- Characters below the surrogate range stay themselves under
`Char.ofNat`-then-`toNat`. -/
theorem toNat_ofNat_valid {n : Nat} (h : n.isValidChar) :
    (Char.ofNat n).toNat = n := by
  rw [Char.ofNat, dif_pos h]
  rfl

/-- Lowercasing a character twice is the same as lowercasing it once. -/
theorem char_toLower_idem (c : Char) : c.toLower.toLower = c.toLower := by
  unfold Char.toLower
  by_cases h : c.toNat ≥ 65 ∧ c.toNat ≤ 90
  · have hv : (c.toNat + 32).isValidChar := Or.inl (by omega)
    have ht : (Char.ofNat (c.toNat + 32)).toNat = c.toNat + 32 :=
      toNat_ofNat_valid hv
    rw [if_pos h, ht, if_neg (by omega)]
  · rw [if_neg h, if_neg h]

/-- Lowercasing a character list twice is the same as lowercasing it once. -/
theorem lowerChars_idem (l : List Char) :
    lowerChars (lowerChars l) = lowerChars l := by
  simp [lowerChars, List.map_map, Function.comp_def, char_toLower_idem]

/-- C4: `detectWebhookChange` returns false for every result with `ok =
false`; for an ok result it returns false when the (lowercased) description
contains "already set", true when it contains "was set" (and not the
earlier-checked "already set"), and false when it contains neither. -/
theorem detectWebhookChange_classification (r : ApiResponse) :
    (r.ok = false → detectWebhookChange r = false) ∧
    (r.ok = true →
      strContainsSub (loweredDescription r) "already set".data = true →
      detectWebhookChange r = false) ∧
    (r.ok = true →
      strContainsSub (loweredDescription r) "already set".data = false →
      strContainsSub (loweredDescription r) "was set".data = true →
      detectWebhookChange r = true) ∧
    (r.ok = true →
      strContainsSub (loweredDescription r) "already set".data = false →
      strContainsSub (loweredDescription r) "was set".data = false →
      detectWebhookChange r = false) := by
  refine ⟨fun h => ?_, fun hok h => ?_, fun hok h1 h2 => ?_,
    fun hok h1 h2 => ?_⟩ <;>
    simp [detectWebhookChange, *]

/-- C4 witness: the classification evaluated on concrete responses. -/
theorem detectWebhookChange_classification_witness :
    detectWebhookChange { ok := false, description := some "Webhook was set" }
        = false ∧
    detectWebhookChange
        { ok := true, description := some "Webhook is already set" } = false ∧
    detectWebhookChange { ok := true, description := some "Webhook was set" }
        = true ∧
    detectWebhookChange { ok := true, description := some "registered" }
        = false :=
  ⟨(detectWebhookChange_classification _).1 rfl,
   (detectWebhookChange_classification _).2.1 rfl (by decide),
   (detectWebhookChange_classification _).2.2.1 rfl (by decide) (by decide),
   (detectWebhookChange_classification _).2.2.2 rfl (by decide) (by decide)⟩

/-- C10: the provider description is matched case-insensitively — detection
is invariant under pre-lowercasing the description, so "Webhook WAS SET"
classifies as changed — and a missing description behaves like the empty
string, classifying as no change. -/
theorem detectWebhookChange_caseInsensitive :
    (∀ (ok : Bool) (d : String),
      detectWebhookChange
          { ok := ok, description := some (String.mk (lowerChars d.data)) } =
        detectWebhookChange { ok := ok, description := some d }) ∧
    (∀ ok : Bool,
      detectWebhookChange { ok := ok, description := none } =
        detectWebhookChange { ok := ok, description := some "" }) ∧
    detectWebhookChange { ok := true, description := some "Webhook WAS SET" }
        = true ∧
    detectWebhookChange { ok := true, description := none } = false := by
  refine ⟨fun ok d => ?_, fun ok => rfl, by decide, rfl⟩
  simp [detectWebhookChange, loweredDescription, lowerChars_idem]

/-- C10 witness: invariance applied at the claim's own example. -/
theorem detectWebhookChange_caseInsensitive_witness :
    detectWebhookChange
        { ok := true,
          description := some (String.mk (lowerChars "Webhook WAS SET".data)) }
      = detectWebhookChange
          { ok := true, description := some "Webhook WAS SET" } :=
  detectWebhookChange_caseInsensitive.1 true "Webhook WAS SET"

/-- C8: under persistent transport failures `setWebhookWithRetry` makes
exactly 3 underlying request attempts, sleeping `attempt * 1s` (1s then 2s)
between failed attempts, and returns null after the last attempt fails. -/
theorem setWebhookWithRetry_transport_exhaustion
    (responses : Nat → FetchOutcome) (h : ∀ n, responses n = .throwErr) :
    setWebhookWithRetry responses =
      { result := none, attempts := 3, sleeps := [1000 * 1, 1000 * 2] } := by
  simp [setWebhookWithRetry, goRetry, h 0, h 1, h 2]

/-- C8 witness: the exhaustion theorem at the always-failing transport. -/
theorem setWebhookWithRetry_transport_exhaustion_witness :
    setWebhookWithRetry (fun _ => .throwErr) =
      { result := none, attempts := 3, sleeps := [1000 * 1, 1000 * 2] } :=
  setWebhookWithRetry_transport_exhaustion _ (fun _ => rfl)

/-- A conditional write whose filter matches no stored document leaves the
collection unchanged and reports nothing modified. -/
theorem updateFirst_no_match {store : List HookDoc} {filt : HookDoc → Bool}
    {f : HookDoc → HookDoc} (h : ∀ d ∈ store, filt d = false) :
    updateFirst store filt f = (store, false) := by
  induction store with
  | nil => rfl
  | cons d t ih =>
    simp [updateFirst, h d (List.mem_cons_self d t),
      ih (fun x hx => h x (List.mem_cons_of_mem d hx))]

/-- The document `findDoc` returns is a member of the store and carries the
looked-up `botId`. -/
theorem findDoc_mem {store : List HookDoc} {b : String} {d : HookDoc}
    (h : findDoc store b = some d) : d ∈ store ∧ d.botId = b := by
  refine ⟨List.mem_of_find?_eq_some h, ?_⟩
  have := List.find?_some h
  simpa using this

/-- Under the unique index, any stored document with the looked-up `botId` is
the one `findDoc` returns. -/
theorem findDoc_eq_of_mem {store : List HookDoc} (hu : uniqueIndex store)
    {b : String} {d d' : HookDoc} (hfind : findDoc store b = some d)
    (hm : d' ∈ store) (hb : d'.botId = b) : d' = d := by
  induction store with
  | nil => cases hm
  | cons x t ih =>
    rw [uniqueIndex, List.pairwise_cons] at hu
    rw [findDoc, List.find?_cons] at hfind
    cases hbeq : x.botId == b with
    | true =>
      simp only [hbeq] at hfind
      injection hfind with hxd
      rcases List.mem_cons.mp hm with h | h
      · exact h.trans hxd
      · exact absurd ((eq_of_beq hbeq).trans hb.symm) (hu.1 d' h)
    | false =>
      simp only [hbeq] at hfind
      rcases List.mem_cons.mp hm with h | h
      · subst h
        exact absurd (beq_iff_eq.mpr hb) (by simp [hbeq])
      · exact ih hu.2 hfind h

/-- C2: `updateWithTiming` (with the write attempted, `webhookChanged =
true`) against an existing record whose stored `apiCallAt` is present and not
strictly older than the caller's `apiCallAt` returns `success: false,
conflict: true, reason: "newer_api_call_exists"` and leaves the repository
state — in particular the stored record and its `webhookUrl` — unchanged. -/
theorem updateWithTiming_conflict (s : RState)
    (botId url secret : String) (tCall tResp now a : Nat) (d : HookDoc)
    (hu : uniqueIndex s.store) (hfind : findDoc s.store botId = some d)
    (hapi : d.apiCallAt = some a) (hnew : ¬ a < tCall) :
    updateWithTiming [] s botId url secret tCall tResp true now =
      ({ success := false, conflict := some true,
         reason := some "newer_api_call_exists" }, s) ∧
    getByBotId s botId = some d := by
  refine ⟨?_, hfind⟩
  have hnone : ∀ d' ∈ s.store, timingFilter botId tCall d' = false := by
    intro d' hd'
    unfold timingFilter
    by_cases hb : d'.botId = botId
    · have : d' = d := findDoc_eq_of_mem hu hfind hd' hb
      subst this
      rw [hapi]
      simp [hnew]
    · simp [hb]
  simp only [updateWithTiming, List.length_nil, updateWithTimingGo, hfind,
    Bool.not_true, Bool.false_eq_true, if_false,
    updateFirst_no_match hnone]

/-- C2 witness: a stored record whose `apiCallAt` (10) is newer than the
caller's (5) yields the conflict result and an untouched store. -/
theorem updateWithTiming_conflict_witness :
    updateWithTiming []
        { store := [{ botId := "b", webhookUrl := "u0", secretToken := "s0",
                      failed := false, createdAt := 0, updatedAt := 0,
                      version := .int 1, apiCallAt := some 10 }] }
        "b" "u1" "s1" 5 6 true 7 =
      ({ success := false, conflict := some true,
         reason := some "newer_api_call_exists" },
       { store := [{ botId := "b", webhookUrl := "u0", secretToken := "s0",
                     failed := false, createdAt := 0, updatedAt := 0,
                     version := .int 1, apiCallAt := some 10 }] }) :=
  (updateWithTiming_conflict
    { store := [{ botId := "b", webhookUrl := "u0", secretToken := "s0",
                  failed := false, createdAt := 0, updatedAt := 0,
                  version := .int 1, apiCallAt := some 10 }] }
    "b" "u1" "s1" 5 6 7 10
    { botId := "b", webhookUrl := "u0", secretToken := "s0",
      failed := false, createdAt := 0, updatedAt := 0,
      version := .int 1, apiCallAt := some 10 }
    (by simp [uniqueIndex]) (by decide) rfl (by decide)).1

/-- C1: the claim fails on the code.  A successful `updateWithTiming` against
an existing record stores the literal operator-shaped document of the `$set`
entry `version: \x7b $inc: 1 \x7d` instead of incrementing the version: starting
from stored version 1 it does not yield version 2 (while the in-process
version cache is nevertheless advanced past the stored one). -/
theorem updateWithTiming_version_not_incremented :
    (updateWithTiming []
        { store := [{ botId := "b", webhookUrl := "u0", secretToken := "s0",
                      failed := false, createdAt := 0, updatedAt := 0,
                      version := .int 1 }] }
        "b" "u1" "s1" 5 6 true 7).1.success = true ∧
    (findDoc (updateWithTiming []
        { store := [{ botId := "b", webhookUrl := "u0", secretToken := "s0",
                      failed := false, createdAt := 0, updatedAt := 0,
                      version := .int 1 }] }
        "b" "u1" "s1" 5 6 true 7).2.store "b").map HookDoc.version =
      some (.incLit 1) ∧
    (findDoc (updateWithTiming []
        { store := [{ botId := "b", webhookUrl := "u0", secretToken := "s0",
                      failed := false, createdAt := 0, updatedAt := 0,
                      version := .int 1 }] }
        "b" "u1" "s1" 5 6 true 7).2.store "b").map HookDoc.version ≠
      some (.int 2) := by
  refine ⟨by decide, by decide, by decide⟩

/-- C7: `updateWithTiming` with `webhookChanged = true` for a subject with no
existing record creates a new record at version 1 and returns success; and
when a concurrent creator wins the insert race (modelled by an interference
prepending the creator's document between the existence check and the
delegated insert, which turns the insert into a duplicate-key failure), the
call retries as an update of that document — here one it wins on timing —
instead of failing. -/
theorem updateWithTiming_fresh_and_race (s : RState)
    (botId url secret : String) (tCall tResp now : Nat) :
    (findDoc s.store botId = none →
      updateWithTiming [] s botId url secret tCall tResp true now =
        ({ success := true },
         { store := s.store ++
             [{ botId := botId, webhookUrl := url, secretToken := secret,
                failed := false, createdAt := now, updatedAt := now,
                version := .int 1, apiCallAt := some tCall,
                apiRespAt := some tResp, dbUpdateAt := some now,
                lastWebhookUrl := some url }],
           vc := vcSet s.vc botId (some (.int 1)) })) ∧
    (∀ (dNew : HookDoc) (a : Nat),
      findDoc s.store botId = none →
      dNew.botId = botId → dNew.apiCallAt = some a → a < tCall →
      dNew.webhookUrl ≠ url →
      (updateWithTiming [fun st => dNew :: st] s botId url secret tCall
          tResp true now).1.success = true ∧
      (findDoc (updateWithTiming [fun st => dNew :: st] s botId url secret
          tCall tResp true now).2.store botId).map HookDoc.webhookUrl =
        some url) := by
  constructor
  · intro hfind
    simp [updateWithTiming, updateWithTimingGo, createWithTiming, hfind]
  · intro dNew a hfind hb hapi hlt hurl
    have hfind1 : findDoc (dNew :: s.store) botId = some dNew := by
      simp [findDoc, List.find?_cons, hb]
    have hfilt : timingFilter botId tCall dNew = true := by
      simp [timingFilter, hb, hapi, hlt]
    have hne : timingSet url secret tCall tResp now dNew ≠ dNew := by
      intro h
      exact hurl ((congrArg HookDoc.webhookUrl h).symm)
    have hdec : decide (timingSet url secret tCall tResp now dNew ≠ dNew) =
        true := decide_eq_true hne
    have hb' : (timingSet url secret tCall tResp now dNew).botId = botId := hb
    have hfindFinal :
        findDoc (timingSet url secret tCall tResp now dNew :: s.store)
          botId = some (timingSet url secret tCall tResp now dNew) := by
      simp [findDoc, List.find?_cons, hb']
    have hver : (timingSet url secret tCall tResp now dNew).version =
        MVal.incLit 1 := rfl
    have hwu : (timingSet url secret tCall tResp now dNew).webhookUrl =
        url := rfl
    rcases hvl : vcLookup s.vc botId with _ | (_ | v) <;>
      simp [updateWithTiming, updateWithTimingGo, createWithTiming, hfind,
        hfind1, hfilt, updateFirst, hdec, getCurrentVersion, hvl, hfindFinal,
        hver, hwu, jsTruthy]

/-- C7 witness: fresh creation on an empty store, and the race against a
concurrent creator whose call is older. -/
theorem updateWithTiming_fresh_and_race_witness :
    (updateWithTiming [] { store := [] } "b" "u1" "s1" 5 6 true 7 =
      ({ success := true },
       { store := [{ botId := "b", webhookUrl := "u1", secretToken := "s1",
                     failed := false, createdAt := 7, updatedAt := 7,
                     version := .int 1, apiCallAt := some 5,
                     apiRespAt := some 6, dbUpdateAt := some 7,
                     lastWebhookUrl := some "u1" }],
         vc := vcSet [] "b" (some (.int 1)) })) ∧
    (updateWithTiming
        [fun st =>
          { botId := "b", webhookUrl := "uX", secretToken := "sX",
            failed := false, createdAt := 1, updatedAt := 1,
            version := .int 1, apiCallAt := some 2 } :: st]
        { store := [] } "b" "u1" "s1" 5 6 true 7).1.success = true :=
  ⟨(updateWithTiming_fresh_and_race { store := [] } "b" "u1" "s1" 5 6 7).1
      rfl,
   ((updateWithTiming_fresh_and_race { store := [] } "b" "u1" "s1" 5 6 7).2
      { botId := "b", webhookUrl := "uX", secretToken := "sX",
        failed := false, createdAt := 1, updatedAt := 1,
        version := .int 1, apiCallAt := some 2 }
      2 rfl rfl rfl (by decide) (by decide)).1⟩

/-- C9: when the registration call succeeds (`ok = true`) and the change
detector reports no change, `ensureWebhook` returns the successful
registration result and the repository state — store and version cache — is
returned exactly as it was: no record is modified, no version changes. -/
theorem ensureWebhook_noChange_noWrite (responses : Nat → FetchOutcome)
    (r : ApiResponse) (tCall tResp now : Nat) (botId url secret : String)
    (s : RState) (hres : (setWebhookWithRetry responses).result = some r)
    (hok : r.ok = true) (hch : detectWebhookChange r = false) :
    ensureWebhook responses tCall tResp now botId url secret s =
      (some r, s) := by
  simp [ensureWebhook, hres, hok, hch]

/-- C9 witness: a provider that replies "Webhook is already set" leaves a
concrete one-record repository state untouched. -/
theorem ensureWebhook_noChange_noWrite_witness :
    ensureWebhook
        (fun _ =>
          .reply { ok := true, description := some "Webhook is already set" })
        5 6 7 "b" "u1" "s1"
        { store := [{ botId := "b", webhookUrl := "u0", secretToken := "s0",
                      failed := false, createdAt := 0, updatedAt := 0,
                      version := .int 1 }] } =
      (some { ok := true, description := some "Webhook is already set" },
       { store := [{ botId := "b", webhookUrl := "u0", secretToken := "s0",
                     failed := false, createdAt := 0, updatedAt := 0,
                     version := .int 1 }] }) :=
  ensureWebhook_noChange_noWrite _ _ 5 6 7 "b" "u1" "s1" _
    (by decide) rfl (by decide)

/-- C3: starting from a key with no cached entry, any number of `get()`
calls whose synchronous parts run before the first fetch resolves produce
exactly one fetcher invocation (one foreground fetch, no background
refresh), and every caller awaits the same promise 0, hence receives the
same resolved value. -/
theorem swr_concurrent_get_dedup (n : Nat) (res : Nat → JVal) :
    (∀ o ∈ (getN (n + 1) {}).1, o = GetOutcome.awaitFetch 0) ∧
    (getN (n + 1) {}).2.fg = 1 ∧ (getN (n + 1) {}).2.bg = 0 ∧
    (∀ o ∈ (getN (n + 1) {}).1, deliver res o = res 0) := by
  have hpend : ∀ m, getN m
      { entry := some { data := JVal.null, promise := some 0 },
        fg := 1, bg := 0, nextFid := 1 } =
      (List.replicate m (GetOutcome.awaitFetch 0),
       { entry := some { data := JVal.null, promise := some 0 },
         fg := 1, bg := 0, nextFid := 1 }) := by
    intro m
    induction m with
    | zero => rfl
    | succ k ih =>
      simp [getN, getStep, fetchAndCacheStep, ih, List.replicate_succ]
  have hsplit : getN (n + 1) {} =
      (GetOutcome.awaitFetch 0 ::
         List.replicate n (GetOutcome.awaitFetch 0),
       { entry := some { data := JVal.null, promise := some 0 },
         fg := 1, bg := 0, nextFid := 1 }) := by
    simp [getN, getStep, fetchAndCacheStep, hpend n]
  refine ⟨?_, ?_, ?_, ?_⟩ <;> rw [hsplit]
  · intro o ho
    rcases List.mem_cons.mp ho with h | h
    · exact h
    · exact List.eq_of_mem_replicate h
  · intro o ho
    have ho' : o = GetOutcome.awaitFetch 0 := by
      rcases List.mem_cons.mp ho with h | h
      · exact h
      · exact List.eq_of_mem_replicate h
    rw [ho']
    rfl

/-- C3 witness: three concurrent `get()` calls on a cold key all await
promise 0, the fetcher runs once, and all receive the value promise 0
resolves to. -/
theorem swr_concurrent_get_dedup_witness :
    (∀ o ∈ (getN 3 {}).1, o = GetOutcome.awaitFetch 0) ∧
    (getN 3 {}).2.fg = 1 ∧ (getN 3 {}).2.bg = 0 ∧
    (∀ o ∈ (getN 3 {}).1, deliver (fun _ => JVal.num 7) o = JVal.num 7) :=
  swr_concurrent_get_dedup 2 (fun _ => JVal.num 7)

/-- C5 counterexample: the claim is false on the code.  After `set(null)`
the cache map has an entry for the key whose stored value is null, yet
`get()` performs an underlying foreground fetch — the code tests
`cached.data !== null`, not entry presence, so a cached null is treated
like a miss. -/
theorem swr_cachedNull_triggers_fetch :
    (cacheSet {} JVal.null).entry = some { data := JVal.null } ∧
    (getStep (cacheSet {} JVal.null)).2.fg =
      (cacheSet {} JVal.null).fg + 1 ∧
    (getStep (cacheSet {} JVal.null)).1 = GetOutcome.awaitFetch 0 := by
  refine ⟨rfl, rfl, rfl⟩

/-- C5 amended: `get()` performs a blocking foreground fetch exactly when
the cache map has no entry for the key, or the entry's stored value is null
with no fetch promise memoised (null doubles as the pending-fetch
placeholder; an entry holding an in-flight promise is joined instead). -/
theorem swr_foreground_fetch_iff (s : CState) :
    (getStep s).2.fg = s.fg + 1 ↔
      s.entry = none ∨
        ∃ e, s.entry = some e ∧ e.data = JVal.null ∧ e.promise = none := by
  rcases s with ⟨entry, fg, bg, nf⟩
  cases entry with
  | none => simp [getStep, fetchAndCacheStep]
  | some e =>
    rcases e with ⟨data, promise, refreshing⟩
    by_cases hd : data = JVal.null
    · subst hd
      cases promise <;> simp [getStep, fetchAndCacheStep]
    · cases promise <;> cases refreshing <;>
        simp [getStep, refreshStart, fetchAndCacheStep, hd]

/-- C5 amended witness: a cached null with no pending promise makes `get()`
fetch. -/
theorem swr_foreground_fetch_iff_witness :
    (getStep (cacheSet {} JVal.null)).2.fg =
      (cacheSet {} JVal.null).fg + 1 :=
  (swr_foreground_fetch_iff (cacheSet {} JVal.null)).mpr
    (Or.inr ⟨{ data := JVal.null }, rfl, rfl, rfl⟩)

/-- C6 counterexample: the claim is false on the code for falsy cached
values.  With 0 cached, `get()` returns 0 and starts a refresh capturing 0;
when that refresh fails, the handler writes back `cached.data || null`,
replacing the previously cached 0 with null. -/
theorem swr_refreshFail_falsy_corrupts :
    (refreshStart (cacheSet {} (JVal.num 0))).1 = some (0, JVal.num 0) ∧
    (getStep (cacheSet {} (JVal.num 0))).1 =
      GetOutcome.value (JVal.num 0) ∧
    (refreshFail (getStep (cacheSet {} (JVal.num 0))).2
        (JVal.num 0)).entry = some { data := JVal.null } ∧
    (refreshFail (getStep (cacheSet {} (JVal.num 0))).2
        (JVal.num 0)).entry ≠ some { data := JVal.num 0 } := by
  refine ⟨rfl, rfl, rfl, by decide⟩

/-- C6 amended: for a truthy previously cached value, `get()` returns it
immediately (so no later refresh outcome can reach that caller), the
background refresh started by the hit captures it, and the failure handler
of that refresh restores exactly the previously cached value (falsy values
are instead replaced by null, see the counterexample). -/
theorem swr_refreshFail_truthy_preserved (s : CState) (e : CEntry)
    (hs : s.entry = some e) (hp : e.promise = none)
    (hr : e.refreshing = false) (ht : jvTruthy e.data = true) :
    (getStep s).1 = GetOutcome.value e.data ∧
    (refreshStart s).1 = some (s.nextFid, e.data) ∧
    (refreshFail (getStep s).2 e.data).entry = some { data := e.data } := by
  have hd : e.data ≠ JVal.null := by
    intro h
    rw [h] at ht
    simp [jvTruthy] at ht
  refine ⟨?_, ?_, ?_⟩
  · simp [getStep, hs, hd]
  · simp [refreshStart, hs, hp, hr]
  · simp [refreshFail, ht]

/-- C6 amended witness: a cached 5 survives a failed background refresh and
is what the `get()` caller received. -/
theorem swr_refreshFail_truthy_preserved_witness :
    (getStep (cacheSet {} (JVal.num 5))).1 =
      GetOutcome.value (JVal.num 5) ∧
    (refreshStart (cacheSet {} (JVal.num 5))).1 =
      some (0, JVal.num 5) ∧
    (refreshFail (getStep (cacheSet {} (JVal.num 5))).2
        (JVal.num 5)).entry = some { data := JVal.num 5 } :=
  swr_refreshFail_truthy_preserved (cacheSet {} (JVal.num 5))
    { data := JVal.num 5 } rfl rfl rfl rfl

end TitusTransmitter
